import Mathlib

/-
Verification of the autopipy temporal-segmentation and trajectory-analytics
engine against its specification.

The development shallowly embeds the relevant parts of the source:

  * navPath.py   NavPath.__init__ input validation (claim C1)
  * trial.py     start-time repair loop (C2), per-frame location
                 classification via one-hot flags and idxmax (C3),
                 validity-flag lifecycle (C10), journey-list creation for
                 invalid trials (C9)
  * lever.py     Lever.isAt with method "zones" (C4, C5)
  * session.py   Session.segmentTrialsFromLog door-event repair (C6)
  * journey.py   searchArenaNoLever sub-path boundaries (C7)
  * navPath.py   meanVectorDirection circular mean (C8)

Missing samples in numpy float arrays are NaN values; we model a numpy
scalar as an inductive NpVal (a rational number or NaN).  Python values
that may be the None object are modelled with Option.  A Python statement
that can raise is modelled with PyResult.
-/

namespace Autopipy

/-- Result of running a fragment of Python code: either a value or a raised
exception carrying a message. -/
inductive PyResult (α : Type) where
  | ok (val : α)
  | raised (msg : String)
deriving DecidableEq

/-- A scalar read from a numpy float array: either an ordinary number
(modelled as a rational) or NaN (a missing sample). -/
inductive NpVal where
  | num (q : ℚ)
  | nan
deriving DecidableEq

/-! ## Claim C10: validity-flag lifecycle (trial.py)

Trial.__init__ line 68 sets self.valid = True.  Inside
extractTrialFeatures the flag is assigned only by statements of the form
"if condition: self.valid = False" (lines 257, 279, 336, 451, 493, 502,
509, 518, 529); no other statement in the repository writes the flag.
Each such site is one step of a fold over the outcomes of the checks. -/

/-- One validity-check site of trial.py: "if check: self.valid = False";
otherwise the flag is left unchanged. -/
def validStep (valid check : Bool) : Bool := if check then false else valid

/-- The validity flag after running a list of check outcomes in program
order, starting from the initial value True set in Trial.__init__. -/
def validAfterChecks (checks : List Bool) : Bool := checks.foldl validStep true

/-- Outcomes of the nine conditional validity checks of
Trial.extractTrialFeatures, in source order (a field is true when the
corresponding check fired). -/
structure TrialChecks where
  synchroLenMismatch : Bool
  fewerThan20Detections : Bool
  videoGapOver250ms : Bool
  noLeverPressEvent : Bool
  noLeverZoneTime : Bool
  notAtLeverAtFirstPress : Bool
  noArenaTime : Bool
  noArenaCenterBeforeFirstPress : Bool
  noArenaAfterFirstPress : Bool
deriving DecidableEq

/-- The check outcomes of one run of extractTrialFeatures in source order. -/
def trialCheckList (t : TrialChecks) : List Bool :=
  [t.synchroLenMismatch, t.fewerThan20Detections, t.videoGapOver250ms,
   t.noLeverPressEvent, t.noLeverZoneTime, t.notAtLeverAtFirstPress,
   t.noArenaTime, t.noArenaCenterBeforeFirstPress, t.noArenaAfterFirstPress]

/-! ## Claim C3: per-frame location classification (trial.py lines 459-481)

The stateDF one-hot row holds the five geometric flags; line 468 clears
homeBase when both homeBase and lever are set; line 473 inserts gap (true
iff the row sum is zero) as the first column; line 475 resolves the row to
one categorical label with pandas idxmax, which returns the first column
holding the row maximum. -/

/-- The five raw per-frame flags computed in the stateDF construction. -/
structure RawFlags where
  lever : Bool
  arenaCenter : Bool
  arena : Bool
  bridge : Bool
  homeBase : Bool
deriving DecidableEq

/-- The categorical location labels, in stateDF column order. -/
inductive Loca where
  | gap
  | lever
  | arenaCenter
  | arena
  | bridge
  | homeBase
deriving DecidableEq

/-- Line 468 of trial.py: clear homeBase when both homeBase and lever are
set for a frame. -/
def adjustHomeBase (f : RawFlags) : RawFlags :=
  if f.homeBase && f.lever then { f with homeBase := false } else f

/-- Line 473 of trial.py: the inserted gap column is true iff the sum of
the (adjusted) five flags is zero. -/
def gapFlag (f : RawFlags) : Bool :=
  !(f.lever || f.arenaCenter || f.arena || f.bridge || f.homeBase)

/-- One row of stateDF after the homeBase adjustment and the gap insert,
as (column label, boolean value) pairs in column order. -/
def stateRow (f0 : RawFlags) : List (Loca × Bool) :=
  [(Loca.gap, gapFlag (adjustHomeBase f0)),
   (Loca.lever, (adjustHomeBase f0).lever),
   (Loca.arenaCenter, (adjustHomeBase f0).arenaCenter),
   (Loca.arena, (adjustHomeBase f0).arena),
   (Loca.bridge, (adjustHomeBase f0).bridge),
   (Loca.homeBase, (adjustHomeBase f0).homeBase)]

/-- Pandas idxmax on a boolean row: the label of the first column whose
value equals the row maximum (for booleans, the maximum is the
disjunction). -/
def idxmaxLabel (row : List (Loca × Bool)) : Loca :=
  match row.find? (fun lb => lb.2 == (row.map Prod.snd).any (fun b => b)) with
  | some lb => lb.1
  | none => Loca.gap

/-- The categorical label stored in the loca column for a frame. -/
def locaOf (f0 : RawFlags) : Loca := idxmaxLabel (stateRow f0)

/-- Stated from the specification wording: the first true flag in the
fixed priority order gap, lever, arenaCenter, arena, bridge, homeBase
(over the adjusted flags). -/
def firstTrueLabel (f : RawFlags) : Loca :=
  if gapFlag f then Loca.gap
  else if f.lever then Loca.lever
  else if f.arenaCenter then Loca.arenaCenter
  else if f.arena then Loca.arena
  else if f.bridge then Loca.bridge
  else Loca.homeBase

/-! ## Claim C1: NavPath input validation (navPath.py lines 51-93)

NavPath.__init__ replaces self.pPose by None when the column count is
neither 7 nor 8, then immediately evaluates self.pPose.shape[0] (line 54),
and replaces self.pPose by None when the row count is below 2; when
self.pPose is None after these steps, every statistic is set to an
explicit undefined value (np.NAN, or Python None for the cumulative-angle
vector) and the constructor returns.  Only the validation prefix of the
constructor is embedded; the claim does not concern the values computed
for valid inputs, so the valid branch is recorded as a token carrying the
validated shape. -/

/-- The statistics fields assigned in the undefined branch of
NavPath.__init__ (lines 60-91); none models np.NAN, the outer none of the
cumulative-angle field models Python None. -/
structure NavPathStats where
  length : Option ℚ
  duration : Option ℚ
  meanVectorLengthPosi : Option ℚ
  meanVectorDirectionPosi : Option ℚ
  meanVectorLengthOri : List (Option ℚ)
  meanVectorDirectionOri : List (Option ℚ)
  meanSpeed : Option ℚ
  speedProfile : List (Option ℚ)
  oriAngularDistance : List (Option ℚ)
  oriAngularSpeed : List (Option ℚ)
  mvAngularDistance : Option ℚ
  mvAngularSpeed : Option ℚ
  medianMVDeviationToTarget : Option ℚ
  medianHDDeviationToTarget : Option ℚ
  entryAngleAroundTarget : Option ℚ
  exitAngleAroundTarget : Option ℚ
  cumSumDiffAngleAroundTarget : Option (List (Option ℚ))
  endCumSumDiffAngleAroundTarget : Option ℚ
  rangeCumSumDiffAngleAroundTarget : Option ℚ
deriving DecidableEq

/-- The all-undefined statistics record built by lines 60-91 of
navPath.py. -/
def undefinedNavPathStats : NavPathStats :=
  { length := none
    duration := none
    meanVectorLengthPosi := none
    meanVectorDirectionPosi := none
    meanVectorLengthOri := [none, none, none]
    meanVectorDirectionOri := [none, none, none]
    meanSpeed := none
    speedProfile := List.replicate 10 none
    oriAngularDistance := [none, none, none]
    oriAngularSpeed := [none, none, none]
    mvAngularDistance := none
    mvAngularSpeed := none
    medianMVDeviationToTarget := none
    medianHDDeviationToTarget := none
    entryAngleAroundTarget := none
    exitAngleAroundTarget := none
    cumSumDiffAngleAroundTarget := none
    endCumSumDiffAngleAroundTarget := none
    rangeCumSumDiffAngleAroundTarget := none }

/-- Outcome of the NavPath constructor: either the early return with the
all-undefined statistics, or fall-through to the statistics computation on
the validated array shape. -/
inductive NavPathCtor where
  | undefinedStats (stats : NavPathStats)
  | computesStats (rows cols : ℕ)
deriving DecidableEq

/-- The validation prefix of NavPath.__init__ (navPath.py lines 51-93) on
an input array of the given shape.  Accessing the shape attribute of a
pPose that was just set to None raises AttributeError, exactly as line 54
does in Python. -/
def navPathNew (rows cols : ℕ) : PyResult NavPathCtor :=
  match (if cols ≠ 7 ∧ cols ≠ 8 then none else some (rows, cols) : Option (ℕ × ℕ)) with
  | none => PyResult.raised "AttributeError"
  | some rc =>
      match (if rc.1 < 2 then none else some rc : Option (ℕ × ℕ)) with
      | none => PyResult.ok (NavPathCtor.undefinedStats undefinedNavPathStats)
      | some rc2 => PyResult.ok (NavPathCtor.computesStats rc2.1 rc2.2)

/-! ## Claim C2: start-time repair loop (trial.py lines 288-312)

The loop keeps a variable back (initially 0) and, while back > -2.0,
executes: back = back - 0.1; startTime = startTime + back; re-slice the
tracking window; stop early if the first sample of the new window is on
the bridge or undefined.  Note that the whole current value of back (not
the 0.1 step) is added to startTime at every iteration.  The re-sliced
window is a function of the candidate startTime alone, so the bridge-or-
home test is abstracted as a predicate on startTime. -/

/-- One run of the while-loop of the start-time repair, with fuel (the
loop body can execute at most 20 times, so fuel 21 is never exhausted).
The predicate p tells whether the first sample of the window sliced at the
given start time is on the bridge or undefined. -/
def adjustLoop (p : ℚ → Bool) : ℕ → ℚ → ℚ → ℚ × ℚ
  | 0, back, st => (back, st)
  | n + 1, back, st =>
      if back > -2 then
        if p (st + (back - 1/10)) then (back - 1/10, st + (back - 1/10))
        else adjustLoop p n (back - 1/10) (st + (back - 1/10))
      else (back, st)

/-- The start-time repair of trial.py lines 288-312: if the first sample
at the nominal start is neither on the bridge nor undefined, run the
backward-adjustment loop.  Returns (final back, final startTime). -/
def startTimeRepair (p : ℚ → Bool) (startTime : ℚ) : ℚ × ℚ :=
  if p startTime then (0, startTime) else adjustLoop p 21 0 startTime

/-! ## Claim C9: journey list of an invalid trial (trial.py lines 639-668,
journey.py lines 34-218)

For the claim only the slice boundaries, the lever presses attributed to
the journey and the set of named paths matter; a Journey is modelled by
those fields.  Journey.__init__ line 60 keeps the presses with video index
strictly between startIndex and endIndex; both branches of the pathD
construction (journey.py lines 192-204 and 210-217) insert the same seven
path names, starting with "all". -/

/-! ## Claims C4 and C5: lever zone test with hysteresis (lever.py lines 48-95)

Lever.isAt with method "zones" loops over the points in order and keeps
the boolean field isAtLever across iterations: while "at", a point is
tested against the exit polygon and the state drops to False when the
point is outside it; while "not at", a point is tested against the enter
polygon and the state rises to True when the point is inside it.  The
guard of line 68 is embedded exactly as written: it asks whether
points[0,0] (the first row, every iteration) is the None object, which a
value read from a numpy float array never is, even when it is NaN.
Membership is delegated to matplotlib contains_points, modelled as an
arbitrary boolean test on defined coordinates; contains_points is false on
a point with NaN coordinates, since every comparison with NaN is false. -/

/-- One tracked point (a row of the points array passed to isAt). -/
structure TrackPt where
  x : NpVal
  y : NpVal
deriving DecidableEq

/-- Matplotlib contains_points for one point of a polygon membership test
m: apply m on defined coordinates, false whenever a coordinate is NaN. -/
def memPoly (m : ℚ → ℚ → Bool) : TrackPt → Bool
  | ⟨NpVal.num a, NpVal.num b⟩ => m a b
  | _ => false

/-- The Python test "x is None" applied to a scalar read from a numpy
float array: such a scalar is never the None object (NaN included), so the
test is constantly false. -/
def pyIsNoneFloat (_v : NpVal) : Bool := false

/-- The loop of Lever.isAt (method "zones"), lines 66-80: first is the
first row of the whole points array (the index [0,0] of line 68), st the
isAtLever state.  Returns the list of results and the final state. -/
def isAtZonesGo (enterZ exitZ : ℚ → ℚ → Bool) (first : TrackPt) :
    Bool → List TrackPt → List Bool × Bool
  | st, [] => ([], st)
  | st, p :: ps =>
      if pyIsNoneFloat first.x then
        let rest := isAtZonesGo enterZ exitZ first st ps
        (st :: rest.1, rest.2)
      else if st then
        let v := memPoly exitZ p
        let rest := isAtZonesGo enterZ exitZ first (if v then st else false) ps
        (v :: rest.1, rest.2)
      else
        let v := memPoly enterZ p
        let rest := isAtZonesGo enterZ exitZ first (if v then true else st) ps
        (v :: rest.1, rest.2)

/-- Lever.isAt with method "zones": run the loop over the points with the
stored isAtLever state. -/
def leverIsAtZones (enterZ exitZ : ℚ → ℚ → Bool) (isAtLever : Bool)
    (points : List TrackPt) : List Bool × Bool :=
  match points with
  | [] => ([], isAtLever)
  | p :: _ => isAtZonesGo enterZ exitZ p isAtLever points

/-- Concrete enter-zone membership used to instantiate the hysteresis
theorem: the single point (0, 0). -/
def enterW (a b : ℚ) : Bool := decide (a = 0 ∧ b = 0)

/-- Concrete exit-zone membership used to instantiate the hysteresis
theorem: the square of side 2 centered at the origin. -/
def exitW (a b : ℚ) : Bool := decide (a * a ≤ 1 ∧ b * b ≤ 1)

/-- Concrete point sequence used to instantiate the hysteresis theorem. -/
def ptsW : List TrackPt := [⟨NpVal.num 0, NpVal.num 0⟩, ⟨NpVal.num 1, NpVal.num 0⟩]

/-! ## Claim C7: searchArenaNoLever boundaries (journey.py lines 100-124)

The journey's stateDF slice is modelled as a list of (video index, loca
label) rows with strictly increasing indices; press0 is the video index of
the journey's first lever press.  Line 110 takes the last bridge row
before the press (line 108 falls back to the journey start); line 124
takes the first lever row strictly between those; when there is none,
line 121 assigns leverIndex[0], the first lever row of the whole slice
(an IndexError on an empty lever index is modelled by none). -/

/-- The indices of the rows of a stateDF slice carrying the given label. -/
def indicesWhere (rows : List (ℕ × Loca)) (t : Loca) : List ℕ :=
  (rows.filter (fun r => r.2 == t)).map Prod.fst

/-- Journey.py lines 104-110: the last bridge index before the first
press, or the journey start index when there is none. -/
def lastBridgeBeforePress (rows : List (ℕ × Loca)) (startIndex press0 : ℕ) : ℕ :=
  match ((indicesWhere rows Loca.bridge).filter (fun i => decide (i < press0))).getLast? with
  | none => startIndex
  | some i => i

/-- Journey.py lines 115-124: the end index of the searchArenaNoLever
sub-path. -/
def searchArenaNoLeverEnd (rows : List (ℕ × Loca)) (startIndex press0 : ℕ) : Option ℕ :=
  let lb := lastBridgeBeforePress rows startIndex press0
  let li := indicesWhere rows Loca.lever
  let between := li.filter (fun i => decide (lb < i) && decide (i < press0))
  if between.isEmpty then li.head? else between.head?

/-- A concrete journey state series: the mouse visits the lever zone at
index 3, departs the bridge for the last time at index 5, and is back in
the lever zone at index 9, when the lever is pressed. -/
def rowsC7 : List (ℕ × Loca) :=
  [(0, Loca.bridge), (1, Loca.arena), (2, Loca.arena), (3, Loca.lever),
   (4, Loca.arena), (5, Loca.bridge), (6, Loca.arena), (7, Loca.arenaCenter),
   (8, Loca.arena), (9, Loca.lever), (10, Loca.arena)]

/-! ## Claim C6: door-event repair and trial pairing (session.py lines 264-314)

The door events after session start are repaired in three steps: a while
loop drops leading events until the first is an open (iloc[0] on an empty
frame raises IndexError); a single trailing open is dropped when the last
event is not a close; then the duplicate flags are computed once (pandas
diff == 0) and, looping over the flagged indices in order, a flagged open
drops the latest remaining event with a strictly smaller time while a
flagged close drops itself.  The trials frame then pairs the times of the
open rows with the times of the close rows positionally; pandas raises
ValueError when the two columns have different lengths.  Event times
within a session log are strictly increasing, so an event is identified by
its time. -/

/-- One door event: its log time and whether it is a door-close (param 1)
rather than a door-open (param 0). -/
structure DoorEvent where
  time : ℚ
  isClose : Bool
deriving DecidableEq

/-- Strict time ordering of door events. -/
def doorLt (x y : DoorEvent) : Prop := x.time < y.time

instance doorLtDecidableRel : DecidableRel doorLt :=
  fun x y => inferInstanceAs (Decidable (x.time < y.time))

/-- Session.py line 269-272: drop leading close events (the while loop
drops rows until the first row is an open). -/
def dropLeadingCloses (l : List DoorEvent) : List DoorEvent :=
  l.dropWhile (fun e => e.isClose)

/-- The leading-close while loop including its failure mode: evaluating
param.iloc[0] on an emptied frame raises IndexError. -/
def leadingStep (l : List DoorEvent) : PyResult (List DoorEvent) :=
  if (dropLeadingCloses l).isEmpty then PyResult.raised "IndexError"
  else PyResult.ok (dropLeadingCloses l)

/-- Session.py lines 275-278: drop the last row once when it is an open. -/
def trailingStep (l : List DoorEvent) : List DoorEvent :=
  match l.getLast? with
  | none => l
  | some e => if e.isClose then l else l.dropLast

/-- Drop the event with the given time (pandas drop by index label; event
times are distinct). -/
def removeAt (t : ℚ) (l : List DoorEvent) : List DoorEvent :=
  l.filter (fun e => decide (e.time ≠ t))

/-- Session.py lines 290-293: drop the latest remaining event whose time
is strictly before t (doorEvents[doorEvents.time < t].tail(1)); dropping
an empty index selection removes nothing. -/
def removeLastBefore (t : ℚ) (l : List DoorEvent) : List DoorEvent :=
  match (l.filter (fun e => decide (e.time < t))).getLast? with
  | none => l
  | some e => removeAt e.time l

/-- Session.py line 281-285: the rows flagged by diff == 0, that is every
row whose param repeats the previous row's param, in row order, computed
once on the list before any removal. -/
def dupProbs : List DoorEvent → List DoorEvent
  | [] => []
  | [_] => []
  | a :: b :: r => (if a.isClose == b.isClose then [b] else []) ++ dupProbs (b :: r)

/-- The body of the repair loop for one flagged row (session.py lines
288-297): a flagged open removes the event before it, a flagged close
removes itself. -/
def doorFix (cur : List DoorEvent) (e : DoorEvent) : List DoorEvent :=
  if e.isClose then removeAt e.time cur else removeLastBefore e.time cur

/-- The duplicate-repair loop: fold the fix over the precomputed flagged
rows, starting from the current event list. -/
def dupRepair (l : List DoorEvent) : List DoorEvent :=
  (dupProbs l).foldl doorFix l

/-- The full door-event repair of segmentTrialsFromLog. -/
def repairedDoorEvents (l : List DoorEvent) : PyResult (List DoorEvent) :=
  match leadingStep l with
  | PyResult.raised m => PyResult.raised m
  | PyResult.ok l1 => PyResult.ok (dupRepair (trailingStep l1))

/-- The times of the open events, in order (startTime column). -/
def openTimes (l : List DoorEvent) : List ℚ :=
  (l.filter (fun e => !e.isClose)).map DoorEvent.time

/-- The times of the close events, in order (endTime column). -/
def closeTimes (l : List DoorEvent) : List ℚ :=
  (l.filter (fun e => e.isClose)).map DoorEvent.time

/-- Session.py lines 302-309: build the trials as positional pairs of the
open times and close times of the surviving events; pandas raises
ValueError when the column arrays have different lengths. -/
def trialsFromDoorEvents (l : List DoorEvent) : PyResult (List (ℚ × ℚ)) :=
  match repairedDoorEvents l with
  | PyResult.raised m => PyResult.raised m
  | PyResult.ok r =>
      if (openTimes r).length = (closeTimes r).length
      then PyResult.ok ((openTimes r).zip (closeTimes r))
      else PyResult.raised "ValueError"

/-- Recursive characterization of the duplicate repair: keep the last open
of every run of consecutive opens and the first close of every run of
consecutive closes.  Proven below to coincide with the foldl-based repair
on time-sorted event lists. -/
def squashDoor : List DoorEvent → List DoorEvent
  | [] => []
  | [a] => [a]
  | a :: b :: r =>
      if a.isClose == b.isClose then
        if a.isClose then squashDoor (a :: r) else squashDoor (b :: r)
      else a :: squashDoor (b :: r)
termination_by l => l.length
decreasing_by all_goals simp

/-- The claimed postcondition, stated from the specification wording: the
flags strictly alternate as open, close, open, close, ..., open, close. -/
def altPairsB : List Bool → Bool
  | [] => true
  | [_] => false
  | a :: b :: r => !a && b && altPairsB r

/-- Alternation from an expected leading close: close, open, close, ...,
open, close. -/
def altTailB : List Bool → Bool
  | [] => false
  | a :: r => a && altPairsB r

/-- The claimed postcondition of the door repair on an event list. -/
def doorAlternationSpec (l : List DoorEvent) : Bool :=
  altPairsB (l.map DoorEvent.isClose)

/-- Counterexample input: open, close, open, open.  The trailing open is
dropped once, leaving open, close, open, which still ends with an open and
does not alternate into pairs. -/
def doorCx : List DoorEvent :=
  [⟨1, false⟩, ⟨2, true⟩, ⟨3, false⟩, ⟨4, false⟩]

/-- Concrete door stream for the witness: two consecutive opens, two
consecutive closes, a correct pair, and a trailing open. -/
def doorWitnessInput : List DoorEvent :=
  [⟨1, false⟩, ⟨2, false⟩, ⟨3, true⟩, ⟨4, true⟩, ⟨5, false⟩, ⟨6, true⟩, ⟨7, false⟩]

/-- The seven path names inserted into journey.pathD, in insertion order. -/
def navPathKeys : List String :=
  ["all", "searchTotal", "searchArena", "searchArenaNoLever",
   "homingTotal", "homingPeri", "homingPeriNoLever"]

/-- The fields of a Journey object needed by the claim. -/
structure JourneyM where
  startIndex : ℕ
  endIndex : ℕ
  leverPressVI : List ℕ
  leverPressed : Bool
  pathDKeys : List String
deriving DecidableEq

/-- Journey.__init__ restricted to the modelled fields: filter the trial
lever presses to the slice, derive leverPressed, and build the pathD key
set. -/
def mkJourneyM (startIndex endIndex : ℕ) (pressVI : List ℕ) : JourneyM :=
  { startIndex := startIndex
    endIndex := endIndex
    leverPressVI := pressVI.filter (fun vi => decide (startIndex < vi) && decide (vi < endIndex))
    leverPressed := decide (0 < (pressVI.filter (fun vi => decide (startIndex < vi) && decide (vi < endIndex))).length)
    pathDKeys := navPathKeys }

/-- Replace the end index of the last journey boundary pair (trial.py line
586). -/
def setLastEnd (jse : List (ℕ × ℕ)) (e : ℕ) : List (ℕ × ℕ) :=
  match jse.getLast? with
  | none => jse
  | some _ => jse.dropLast ++ [((jse.getLast?.getD (0, 0)).1, e)]

/-- Trial.py lines 576-586: if some journey starts after the first lever
press, drop the last journey and give its end to the new last journey. -/
def adjustJourneysAfterPress (jse : List (ℕ × ℕ)) (pressVI : List ℕ) : List (ℕ × ℕ) :=
  match pressVI.head? with
  | none => jse
  | some p0 =>
      if jse.any (fun se => decide (p0 < se.1)) then
        match jse.getLast? with
        | none => jse
        | some last => setLastEnd jse.dropLast last.2
      else jse

/-- Trial.py lines 566-655: the journey list built at the end of
extractTrialFeatures.  A valid trial maps the (adjusted) boundary pairs to
journeys; an invalid trial appends exactly one journey covering
startVideoIndex..endVideoIndex with an empty lever-press table. -/
def trialJourneyList (valid : Bool) (jse : List (ℕ × ℕ)) (startVI endVI : ℕ)
    (pressVI : List ℕ) : List JourneyM :=
  if valid then
    (adjustJourneysAfterPress jse pressVI).map (fun se => mkJourneyM se.1 se.2 pressVI)
  else
    [mkJourneyM startVI endVI []]

/-- Trial.py lines 663-668: trial.pathD is the pathD of the first journey
with a lever press, or of the last journey when none pressed; indexing an
empty journey list would raise, modelled by none. -/
def trialPathDKeys (jl : List JourneyM) : Option (List String) :=
  match jl.filter (fun j => j.leverPressed) with
  | j :: _ => some j.pathDKeys
  | [] => jl.getLast?.map (fun j => j.pathDKeys)

/-! ## Claim C8: circular mean direction (navPath.py lines 419-441)

NavPath.meanVectorDirection (called with the defaults degree=True and
negativeAngle=False) converts the angles to radians, builds the unit
vectors (cos, sin), averages the components over the number of angles,
takes np.arctan2 of the averaged components, adds 2 pi when the direction
is negative, and converts back to degrees.  The claim concerns lists
without NaN entries, for which np.nansum is the plain sum. -/

/-- Numpy arctan2(y, x): the angle of the vector (x, y) in (-pi, pi]. -/
noncomputable def arctan2 (y x : ℝ) : ℝ :=
  if 0 < x then Real.arctan (y / x)
  else if x < 0 then
    (if 0 ≤ y then Real.arctan (y / x) + Real.pi else Real.arctan (y / x) - Real.pi)
  else
    (if 0 < y then Real.pi / 2 else if y < 0 then -(Real.pi / 2) else 0)

/-- NavPath.meanVectorDirection with degree=True and negativeAngle=False:
average the unit vectors of the angles and return the direction of the
mean vector in degrees, wrapped into the range from 0 to 360. -/
noncomputable def meanVectorDirection (theta : List ℝ) : ℝ :=
  let rad := theta.map (fun t => t * Real.pi / 180)
  let mvx := (rad.map Real.cos).sum / (theta.length : ℝ)
  let mvy := (rad.map Real.sin).sum / (theta.length : ℝ)
  let dir := arctan2 mvy mvx
  (if dir < 0 then 2 * Real.pi + dir else dir) / Real.pi * 180

end Autopipy

namespace Autopipy

/-- Fold characterization of the validity flag: it is the conjunction of
the initial value with the negation of every fired check. -/
theorem validAfterChecks_foldl (v : Bool) (l : List Bool) :
    l.foldl validStep v = (v && l.all (fun c => !c)) := by
  induction l generalizing v with
  | nil => simp
  | cons c l ih =>
      cases c <;> cases v <;> simp [validStep, ih]

/-- Claim C10: the trial validity flag is monotone.  Each check site maps
the flag v and check outcome c to v AND (NOT c), so the flag starts true,
can only be lowered, and once any check in the sequence fires the final
flag is false no matter what later checks do; it is true exactly when no
check fired. -/
theorem trial_valid_flag_monotone :
    (∀ v c : Bool, validStep v c = (v && !c))
    ∧ (∀ checks : List Bool, validAfterChecks checks = checks.all (fun c => !c))
    ∧ (∀ l1 l2 : List Bool, validAfterChecks (l1 ++ true :: l2) = false)
    ∧ (∀ t : TrialChecks, validAfterChecks (trialCheckList t) =
        (!t.synchroLenMismatch && !t.fewerThan20Detections && !t.videoGapOver250ms &&
         !t.noLeverPressEvent && !t.noLeverZoneTime && !t.notAtLeverAtFirstPress &&
         !t.noArenaTime && !t.noArenaCenterBeforeFirstPress && !t.noArenaAfterFirstPress)) := by
  refine ⟨?_, ?_, ?_, ?_⟩
  · intro v c; cases v <;> cases c <;> rfl
  · intro checks; simpa using validAfterChecks_foldl true checks
  · intro l1 l2
    have h := validAfterChecks_foldl true (l1 ++ true :: l2)
    simpa [validAfterChecks, List.all_append] using h
  · intro t
    have h := validAfterChecks_foldl true (trialCheckList t)
    cases t
    simpa [validAfterChecks, trialCheckList, Bool.and_assoc] using h

/-- Claim C3: the per-frame location classifier.  For every combination of
the five raw flags, the loca label equals the first true flag in the
priority order gap, lever, arenaCenter, arena, bridge, homeBase taken over
the adjusted row; the inserted gap flag is true exactly when all five
adjusted flags are false; at least one entry of the row is true, so the
idxmax label is genuinely attained; and whenever homeBase and lever are
both raw-true the homeBase flag is cleared and the label is lever. -/
theorem loca_priority_resolution :
    (∀ lv ac ar br hb : Bool,
      locaOf ⟨lv, ac, ar, br, hb⟩ = firstTrueLabel (adjustHomeBase ⟨lv, ac, ar, br, hb⟩)
      ∧ gapFlag (adjustHomeBase ⟨lv, ac, ar, br, hb⟩) =
          (!(adjustHomeBase ⟨lv, ac, ar, br, hb⟩).lever &&
           !(adjustHomeBase ⟨lv, ac, ar, br, hb⟩).arenaCenter &&
           !(adjustHomeBase ⟨lv, ac, ar, br, hb⟩).arena &&
           !(adjustHomeBase ⟨lv, ac, ar, br, hb⟩).bridge &&
           !(adjustHomeBase ⟨lv, ac, ar, br, hb⟩).homeBase)
      ∧ (stateRow ⟨lv, ac, ar, br, hb⟩).any (fun lb => lb.2) = true)
    ∧ (∀ ac ar br : Bool,
      (adjustHomeBase ⟨true, ac, ar, br, true⟩).homeBase = false
      ∧ locaOf ⟨true, ac, ar, br, true⟩ = Loca.lever) := by
  constructor
  · decide
  · decide

/-- Claim C1 (code bug): the NavPath constructor raises AttributeError on
a wrong column count, because it assigns None to pPose and the very next
statement reads pPose.shape; an array with fewer than 2 rows and a valid
column count yields the all-undefined statistics record without raising,
every statistic of which is the explicit undefined value. -/
theorem navPath_invalid_input_behavior :
    navPathNew 2 6 = PyResult.raised "AttributeError"
    ∧ navPathNew 1 7 = PyResult.ok (NavPathCtor.undefinedStats undefinedNavPathStats)
    ∧ navPathNew 0 8 = PyResult.ok (NavPathCtor.undefinedStats undefinedNavPathStats)
    ∧ navPathNew 2 7 = PyResult.ok (NavPathCtor.computesStats 2 7)
    ∧ undefinedNavPathStats.length = none
    ∧ undefinedNavPathStats.duration = none
    ∧ undefinedNavPathStats.meanVectorLengthPosi = none
    ∧ undefinedNavPathStats.meanVectorDirectionPosi = none
    ∧ undefinedNavPathStats.meanVectorLengthOri = [none, none, none]
    ∧ undefinedNavPathStats.meanVectorDirectionOri = [none, none, none]
    ∧ undefinedNavPathStats.meanSpeed = none
    ∧ undefinedNavPathStats.speedProfile = List.replicate 10 none
    ∧ undefinedNavPathStats.oriAngularDistance = [none, none, none]
    ∧ undefinedNavPathStats.oriAngularSpeed = [none, none, none]
    ∧ undefinedNavPathStats.mvAngularDistance = none
    ∧ undefinedNavPathStats.mvAngularSpeed = none
    ∧ undefinedNavPathStats.medianMVDeviationToTarget = none
    ∧ undefinedNavPathStats.medianHDDeviationToTarget = none
    ∧ undefinedNavPathStats.entryAngleAroundTarget = none
    ∧ undefinedNavPathStats.exitAngleAroundTarget = none
    ∧ undefinedNavPathStats.cumSumDiffAngleAroundTarget = none
    ∧ undefinedNavPathStats.endCumSumDiffAngleAroundTarget = none
    ∧ undefinedNavPathStats.rangeCumSumDiffAngleAroundTarget = none := by
  decide

/-- Claim C2 (code bug): the start-time repair loop adds the whole running
value of back at each iteration.  If the first window sample is never on
the bridge nor undefined, the loop executes 20 times and moves startTime
backward by 0.1 + 0.2 + ... + 2.0 = 21 seconds, far beyond the documented
2-second bound; and when the test first succeeds at the second iteration
the start time has already moved by 0.3 s instead of two 0.1-s steps. -/
theorem startTimeRepair_cumulative_drift :
    startTimeRepair (fun _ => false) 0 = (-2, -21)
    ∧ startTimeRepair (fun t => decide (t ≤ -(3/10))) 0 = (-1/5, -3/10)
    ∧ ((2 : ℚ) < 21)
    ∧ ((-3/10 : ℚ) ≠ -2/10) := by
  refine ⟨?_, ?_, by norm_num, by norm_num⟩
  · norm_num [startTimeRepair, adjustLoop]
  · norm_num [startTimeRepair, adjustLoop]

/-- Claim C9: an invalid trial gets exactly one journey, spanning the
trial start and end video indices, with no lever press attributed to it,
so the trial pathD always holds the full named-path set including the
"all" entry. -/
theorem invalid_trial_single_journey (jse : List (ℕ × ℕ)) (startVI endVI : ℕ)
    (pressVI : List ℕ) :
    trialJourneyList false jse startVI endVI pressVI = [mkJourneyM startVI endVI []]
    ∧ (mkJourneyM startVI endVI []).startIndex = startVI
    ∧ (mkJourneyM startVI endVI []).endIndex = endVI
    ∧ (mkJourneyM startVI endVI []).leverPressVI = []
    ∧ (mkJourneyM startVI endVI []).leverPressed = false
    ∧ "all" ∈ (mkJourneyM startVI endVI []).pathDKeys
    ∧ trialPathDKeys (trialJourneyList false jse startVI endVI pressVI) = some navPathKeys := by
  refine ⟨rfl, rfl, rfl, rfl, rfl, ?_, rfl⟩
  simp [mkJourneyM, navPathKeys]

/-- Membership in the enter polygon implies membership in the exit polygon
pointwise, NaN points included, whenever the underlying tests are in the
subset relation. -/
theorem memPoly_mono (enterZ exitZ : ℚ → ℚ → Bool)
    (hsub : ∀ a b : ℚ, enterZ a b = true → exitZ a b = true) (p : TrackPt)
    (h : memPoly enterZ p = true) : memPoly exitZ p = true := by
  cases p with
  | mk x y =>
      cases x with
      | num a =>
          cases y with
          | num b => exact hsub a b h
          | nan => simp [memPoly] at h
      | nan => simp [memPoly] at h

/-- While the points all lie inside the enter polygon, the loop reports at
the lever from every state (entering from "not at", staying from "at"
because the enter polygon is contained in the exit polygon). -/
theorem isAtZonesGo_all_enter_true (enterZ exitZ : ℚ → ℚ → Bool)
    (hsub : ∀ a b : ℚ, enterZ a b = true → exitZ a b = true) (first : TrackPt) :
    ∀ (l : List TrackPt) (st : Bool), (∀ p ∈ l, memPoly enterZ p = true) →
      ∀ r ∈ (isAtZonesGo enterZ exitZ first st l).1, r = true := by
  intro l
  induction l with
  | nil => intro st _ r hr; simp [isAtZonesGo] at hr
  | cons p ps ih =>
      intro st hin r hr
      have hp : memPoly enterZ p = true := hin p (List.mem_cons_self p ps)
      have hx : memPoly exitZ p = true := memPoly_mono enterZ exitZ hsub p hp
      have hin2 : ∀ q ∈ ps, memPoly enterZ q = true :=
        fun q hq => hin q (List.mem_cons_of_mem p hq)
      cases st with
      | true =>
          simp only [isAtZonesGo, pyIsNoneFloat, if_false, if_true, hx, Bool.false_eq_true,
            ite_false, ite_true] at hr
          rcases List.mem_cons.mp hr with h | h
          · exact h
          · exact ih true hin2 r h
      | false =>
          simp only [isAtZonesGo, pyIsNoneFloat, if_false, if_true, hp, Bool.false_eq_true,
            ite_false, ite_true] at hr
          rcases List.mem_cons.mp hr with h | h
          · exact h
          · exact ih true hin2 r h

/-- While the at-lever state persists (all earlier points inside the exit
polygon), the result at index i is exactly the exit-polygon membership of
point i. -/
theorem isAtZonesGo_at_state (enterZ exitZ : ℚ → ℚ → Bool) (first : TrackPt) :
    ∀ (l : List TrackPt) (i : ℕ), i < l.length →
      (∀ j : ℕ, j < i → memPoly exitZ (l.getD j ⟨NpVal.nan, NpVal.nan⟩) = true) →
      (isAtZonesGo enterZ exitZ first true l).1.getD i false =
        memPoly exitZ (l.getD i ⟨NpVal.nan, NpVal.nan⟩) := by
  intro l
  induction l with
  | nil => intro i hi _; simp at hi
  | cons p ps ih =>
      intro i hi hj
      cases i with
      | zero =>
          simp [isAtZonesGo, pyIsNoneFloat]
      | succ i =>
          have h0 : memPoly exitZ p = true := by
            have := hj 0 (Nat.succ_pos i)
            simpa using this
          have hstep : ∀ j : ℕ, j < i →
              memPoly exitZ (ps.getD j ⟨NpVal.nan, NpVal.nan⟩) = true := by
            intro j hjlt
            have := hj (j + 1) (Nat.succ_lt_succ hjlt)
            simpa using this
          have hlen : i < ps.length := Nat.lt_of_succ_lt_succ hi
          have := ih i hlen hstep
          simpa [isAtZonesGo, pyIsNoneFloat, h0] using this

/-- From the not-at-lever state, as long as no point lies inside the enter
polygon, every result stays false. -/
theorem isAtZonesGo_stays_false (enterZ exitZ : ℚ → ℚ → Bool) (first : TrackPt) :
    ∀ l : List TrackPt, (∀ p ∈ l, memPoly enterZ p = false) →
      ∀ r ∈ (isAtZonesGo enterZ exitZ first false l).1, r = false := by
  intro l
  induction l with
  | nil => intro _ r hr; simp [isAtZonesGo] at hr
  | cons p ps ih =>
      intro hout r hr
      have hp : memPoly enterZ p = false := hout p (List.mem_cons_self p ps)
      have hout2 : ∀ q ∈ ps, memPoly enterZ q = false :=
        fun q hq => hout q (List.mem_cons_of_mem p hq)
      simp only [isAtZonesGo, pyIsNoneFloat, if_false, if_true, hp, Bool.false_eq_true,
        ite_false, ite_true] at hr
      rcases List.mem_cons.mp hr with h | h
      · exact h
      · exact ih hout2 r h

/-- Claim C4: hysteresis monotonicity of the zones lever test.  With enter
contained in exit (the construction invariant of the two scaled zone
outlines) and defined coordinates: starting not at the lever, a sequence
entirely inside the enter polygon reports true from the first sample on;
starting at the lever, while every earlier point stayed inside the exit
polygon the report at a point is exactly its exit-polygon membership (so
it first turns false exactly when a point leaves the exit polygon); and
after a return to the not-at state the report stays false until some point
lies inside the enter polygon. -/
theorem lever_zone_hysteresis (enterZ exitZ : ℚ → ℚ → Bool) (pts : List TrackPt)
    (hsub : ∀ a b : ℚ, enterZ a b = true → exitZ a b = true)
    (hdef : ∀ p ∈ pts, p.x ≠ NpVal.nan ∧ p.y ≠ NpVal.nan) :
    ((∀ p ∈ pts, memPoly enterZ p = true) →
       ∀ r ∈ (leverIsAtZones enterZ exitZ false pts).1, r = true)
    ∧ (∀ i : ℕ, i < pts.length →
        (∀ j : ℕ, j < i → memPoly exitZ (pts.getD j ⟨NpVal.nan, NpVal.nan⟩) = true) →
        (leverIsAtZones enterZ exitZ true pts).1.getD i false =
          memPoly exitZ (pts.getD i ⟨NpVal.nan, NpVal.nan⟩))
    ∧ ((∀ p ∈ pts, memPoly enterZ p = false) →
       ∀ r ∈ (leverIsAtZones enterZ exitZ false pts).1, r = false) := by
  refine ⟨?_, ?_, ?_⟩
  · intro hin r hr
    cases pts with
    | nil => simp [leverIsAtZones] at hr
    | cons p ps =>
        exact isAtZonesGo_all_enter_true enterZ exitZ hsub p (p :: ps) false hin r hr
  · intro i hi hj
    cases pts with
    | nil => simp at hi
    | cons p ps =>
        exact isAtZonesGo_at_state enterZ exitZ p (p :: ps) i hi hj
  · intro hout r hr
    cases pts with
    | nil => simp [leverIsAtZones] at hr
    | cons p ps =>
        exact isAtZonesGo_stays_false enterZ exitZ p (p :: ps) hout r hr

/-- The concrete enter test is contained in the concrete exit test. -/
theorem enterW_le_exitW : ∀ a b : ℚ, enterW a b = true → exitW a b = true := by
  intro a b h
  unfold enterW at h
  obtain ⟨ha, hb⟩ := of_decide_eq_true h
  subst ha
  subst hb
  unfold exitW
  have hq : (0 : ℚ) * 0 ≤ 1 ∧ (0 : ℚ) * 0 ≤ 1 := by norm_num
  exact decide_eq_true hq

/-- The concrete point sequence has defined coordinates. -/
theorem ptsW_defined : ∀ p ∈ ptsW, p.x ≠ NpVal.nan ∧ p.y ≠ NpVal.nan := by
  intro p hp
  simp only [ptsW, List.mem_cons, List.mem_singleton] at hp
  rcases hp with h | h | h
  · subst h; exact ⟨by simp, by simp⟩
  · subst h; exact ⟨by simp, by simp⟩
  · simp at h

/-- Witness for the hysteresis theorem at the concrete zones and points. -/
theorem lever_zone_hysteresis_witness :
    ((∀ a b : ℚ, enterW a b = true → exitW a b = true)
      ∧ (∀ p ∈ ptsW, p.x ≠ NpVal.nan ∧ p.y ≠ NpVal.nan))
    ∧ (((∀ p ∈ ptsW, memPoly enterW p = true) →
          ∀ r ∈ (leverIsAtZones enterW exitW false ptsW).1, r = true)
       ∧ (∀ i : ℕ, i < ptsW.length →
            (∀ j : ℕ, j < i → memPoly exitW (ptsW.getD j ⟨NpVal.nan, NpVal.nan⟩) = true) →
            (leverIsAtZones enterW exitW true ptsW).1.getD i false =
              memPoly exitW (ptsW.getD i ⟨NpVal.nan, NpVal.nan⟩))
       ∧ ((∀ p ∈ ptsW, memPoly enterW p = false) →
          ∀ r ∈ (leverIsAtZones enterW exitW false ptsW).1, r = false)) :=
  ⟨⟨enterW_le_exitW, ptsW_defined⟩,
   lever_zone_hysteresis enterW exitW ptsW enterW_le_exitW ptsW_defined⟩

/-- Claim C5 (code bug): a point with NaN coordinates does not keep the
previous at-lever state.  The guard points[0,0] is None of line 68 is
never true for a float array, so the NaN point is handed to
contains_points, which reports false; from the at-lever state the call
therefore returns false and drops the state, where the claim expects the
previous value true and an unchanged state. -/
theorem lever_nan_point_clears_state :
    leverIsAtZones enterW exitW true [⟨NpVal.nan, NpVal.nan⟩] = ([false], false)
    ∧ (([false], false) : List Bool × Bool) ≠ ([true], true) := by
  constructor
  · simp [leverIsAtZones, isAtZonesGo, pyIsNoneFloat, memPoly]
  · simp

/-- Dropping by time from a time-sorted list removes exactly the named
event. -/
theorem removeAt_middle (pre post : List DoorEvent) (b : DoorEvent)
    (h : (pre ++ b :: post).Pairwise doorLt) :
    removeAt b.time (pre ++ b :: post) = pre ++ post := by
  rw [List.pairwise_append] at h
  obtain ⟨-, hcons, hcross⟩ := h
  rw [List.pairwise_cons] at hcons
  obtain ⟨hb, -⟩ := hcons
  unfold removeAt
  rw [List.filter_append, List.filter_cons]
  have hbb : (decide (b.time ≠ b.time)) = false := by simp
  rw [hbb]
  simp only [Bool.false_eq_true, if_false]
  congr 1
  · refine List.filter_eq_self.mpr (fun e he => ?_)
    have hlt := hcross e he b (List.mem_cons_self b post)
    simp only [decide_eq_true_eq]
    exact ne_of_lt hlt
  · refine List.filter_eq_self.mpr (fun e he => ?_)
    have hlt := hb e he
    simp only [decide_eq_true_eq]
    exact ne_of_gt hlt

/-- On a time-sorted list, removing the last event before the time of b
removes exactly the event adjacent to b on its left. -/
theorem removeLastBefore_adjacent (pre post : List DoorEvent) (a b : DoorEvent)
    (h : (pre ++ a :: b :: post).Pairwise doorLt) :
    removeLastBefore b.time (pre ++ a :: b :: post) = pre ++ b :: post := by
  have h2 := h
  rw [List.pairwise_append] at h2
  obtain ⟨-, hcons, hcross⟩ := h2
  rw [List.pairwise_cons] at hcons
  obtain ⟨ha, hcons2⟩ := hcons
  rw [List.pairwise_cons] at hcons2
  obtain ⟨hb, -⟩ := hcons2
  have hab : a.time < b.time := ha b (List.mem_cons_self b post)
  have hfilter : (pre ++ a :: b :: post).filter (fun e => decide (e.time < b.time))
      = pre ++ [a] := by
    rw [List.filter_append]
    congr 1
    · refine List.filter_eq_self.mpr (fun e he => ?_)
      have hlt := hcross e he b (by simp)
      simp only [decide_eq_true_eq]
      exact hlt
    · rw [List.filter_cons, List.filter_cons]
      have hpa : (decide (a.time < b.time)) = true := decide_eq_true hab
      have hpb : (decide (b.time < b.time)) = false := by simp
      rw [hpa, hpb]
      simp only [if_true, Bool.false_eq_true, if_false]
      have hpost : post.filter (fun e => decide (e.time < b.time)) = [] := by
        rw [List.filter_eq_nil_iff]
        intro e he
        have hlt := hb e he
        simp only [decide_eq_true_eq, not_lt]
        exact le_of_lt hlt
      rw [hpost]
  have hmatch : ((pre ++ a :: b :: post).filter
      (fun e => decide (e.time < b.time))).getLast? = some a := by
    rw [hfilter, List.getLast?_concat]
  unfold removeLastBefore
  rw [hmatch]
  exact removeAt_middle pre (b :: post) a h

/-- The duplicate flags of a list depend on its head only through the
head's param. -/
theorem dupProbs_cons_eq (a b : DoorEvent) (r : List DoorEvent)
    (hab : a.isClose = b.isClose) : dupProbs (a :: r) = dupProbs (b :: r) := by
  cases r with
  | nil => rfl
  | cons c r2 => simp [dupProbs, hab]

/-- The duplicate-repair fold coincides with the run-squash recursion on
time-sorted lists: a flagged close removes itself, and each flagged open
removes precisely its left neighbour, which is still present because
earlier flagged opens of the same run removed only elements further left.
Generalized over an untouched sorted prefix pre. -/
theorem dupFold_eq_squash (n : ℕ) :
    ∀ (s pre : List DoorEvent), s.length ≤ n → (pre ++ s).Pairwise doorLt →
      (dupProbs s).foldl doorFix (pre ++ s) = pre ++ squashDoor s := by
  induction n with
  | zero =>
      intro s pre hlen _
      have hs : s = [] := List.length_eq_zero.mp (Nat.le_zero.mp hlen)
      subst hs
      simp [dupProbs, squashDoor]
  | succ n ih =>
      intro s pre hlen hsort
      cases s with
      | nil => simp [dupProbs, squashDoor]
      | cons a s2 =>
          cases s2 with
          | nil => simp [dupProbs, squashDoor]
          | cons b r =>
              simp only [List.length_cons] at hlen
              by_cases hab : a.isClose = b.isClose
              · have hprobs : dupProbs (a :: b :: r) = b :: dupProbs (b :: r) := by
                  simp [dupProbs, hab]
                rw [hprobs, List.foldl_cons]
                cases hc : b.isClose with
                | true =>
                    have hac : a.isClose = true := by rw [hab, hc]
                    have hstep : doorFix (pre ++ a :: b :: r) b = pre ++ a :: r := by
                      unfold doorFix
                      rw [hc]
                      simp only [if_true]
                      have hmid := removeAt_middle (pre ++ [a]) r b (by simpa using hsort)
                      simpa using hmid
                    rw [hstep, dupProbs_cons_eq b a r hab.symm]
                    have hsub : (pre ++ a :: r).Sublist (pre ++ a :: b :: r) :=
                      List.Sublist.append_left
                        (List.Sublist.cons₂ a (List.sublist_cons_self b r)) pre
                    have hsort2 := List.Pairwise.sublist hsub hsort
                    have hlen2 : (a :: r).length ≤ n := by
                      simp only [List.length_cons]; omega
                    rw [ih (a :: r) pre hlen2 hsort2]
                    have hsq : squashDoor (a :: b :: r) = squashDoor (a :: r) := by
                      simp [squashDoor, hab, hac, hc]
                    rw [hsq]
                | false =>
                    have hac : a.isClose = false := by rw [hab, hc]
                    have hstep : doorFix (pre ++ a :: b :: r) b = pre ++ b :: r := by
                      unfold doorFix
                      rw [hc]
                      simp only [Bool.false_eq_true, if_false]
                      exact removeLastBefore_adjacent pre r a b hsort
                    rw [hstep]
                    have hsub : (pre ++ b :: r).Sublist (pre ++ a :: b :: r) :=
                      List.Sublist.append_left (List.sublist_cons_self a (b :: r)) pre
                    have hsort2 := List.Pairwise.sublist hsub hsort
                    have hlen2 : (b :: r).length ≤ n := by
                      simp only [List.length_cons]; omega
                    rw [ih (b :: r) pre hlen2 hsort2]
                    have hsq : squashDoor (a :: b :: r) = squashDoor (b :: r) := by
                      simp [squashDoor, hab, hac, hc]
                    rw [hsq]
              · have hprobs : dupProbs (a :: b :: r) = dupProbs (b :: r) := by
                  simp [dupProbs, hab]
                rw [hprobs]
                have hassoc : pre ++ a :: b :: r = (pre ++ [a]) ++ b :: r := by simp
                rw [hassoc]
                have hsort2 : ((pre ++ [a]) ++ b :: r).Pairwise doorLt := by
                  rw [← hassoc]; exact hsort
                have hlen2 : (b :: r).length ≤ n := by
                  simp only [List.length_cons]; omega
                rw [ih (b :: r) (pre ++ [a]) hlen2 hsort2]
                have hsq : squashDoor (a :: b :: r) = a :: squashDoor (b :: r) := by
                  simp [squashDoor, beq_iff_eq, hab]
                rw [hsq]
                simp

/-- Unfolding step: a leading open flag reduces the pair-alternation test
to the close-leading test of the tail. -/
theorem altPairsB_cons_false (m : List Bool) : altPairsB (false :: m) = altTailB m := by
  cases m with
  | nil => rfl
  | cons h t => simp [altPairsB, altTailB]

/-- Unfolding step: a leading close flag reduces the close-leading test to
the pair-alternation test of the tail. -/
theorem altTailB_cons_true (m : List Bool) : altTailB (true :: m) = altPairsB m := by
  simp [altTailB]

/-- The squash of a nonempty event list ending with a close alternates:
into open-close pairs when it starts with an open, and into a close
followed by open-close pairs when it starts with a close. -/
theorem squashDoor_alternates (n : ℕ) :
    ∀ (a : DoorEvent) (xs : List DoorEvent), (a :: xs).length ≤ n →
      (∀ e, (a :: xs).getLast? = some e → e.isClose = true) →
      (a.isClose = false → altPairsB ((squashDoor (a :: xs)).map DoorEvent.isClose) = true)
      ∧ (a.isClose = true → altTailB ((squashDoor (a :: xs)).map DoorEvent.isClose) = true) := by
  induction n with
  | zero => intro a xs hlen hlast; simp at hlen
  | succ n ih =>
      intro a xs hlen hlast
      cases xs with
      | nil =>
          have ha : a.isClose = true := hlast a (by simp)
          constructor
          · intro hopen; rw [hopen] at ha; simp at ha
          · intro _
            simp [squashDoor, altTailB, altPairsB, ha]
      | cons b r =>
          simp only [List.length_cons] at hlen
          have hlast2 : ∀ e, (b :: r).getLast? = some e → e.isClose = true := by
            intro e he
            apply hlast
            rw [List.getLast?_cons_cons]
            exact he
          by_cases hab : a.isClose = b.isClose
          · cases hc : b.isClose with
            | true =>
                have hac : a.isClose = true := by rw [hab, hc]
                have hsq : squashDoor (a :: b :: r) = squashDoor (a :: r) := by
                  simp [squashDoor, hab, hac, hc]
                have hlast3 : ∀ e, (a :: r).getLast? = some e → e.isClose = true := by
                  cases r with
                  | nil =>
                      intro e he
                      simp only [List.getLast?_singleton, Option.some.injEq] at he
                      rw [← he]
                      exact hac
                  | cons c r2 =>
                      intro e he
                      rw [List.getLast?_cons_cons] at he
                      apply hlast2
                      rw [List.getLast?_cons_cons]
                      exact he
                have hres := ih a r (by simp only [List.length_cons]; omega) hlast3
                constructor
                · intro hopen; rw [hopen] at hac; simp at hac
                · intro _; rw [hsq]; exact hres.2 hac
            | false =>
                have hac : a.isClose = false := by rw [hab, hc]
                have hsq : squashDoor (a :: b :: r) = squashDoor (b :: r) := by
                  simp [squashDoor, hab, hac, hc]
                cases r with
                | nil =>
                    have hbc : b.isClose = true := hlast2 b (by simp)
                    rw [hc] at hbc; simp at hbc
                | cons c r2 =>
                    have hres := ih b (c :: r2) (by simp only [List.length_cons] at hlen ⊢; omega) hlast2
                    constructor
                    · intro _; rw [hsq]; exact hres.1 hc
                    · intro hclose; rw [hclose] at hac; simp at hac
          · have hsq : squashDoor (a :: b :: r) = a :: squashDoor (b :: r) := by
              simp [squashDoor, beq_iff_eq, hab]
            cases r with
            | nil =>
                have hbc : b.isClose = true := hlast2 b (by simp)
                have ha : a.isClose = false := by
                  cases hx : a.isClose with
                  | false => rfl
                  | true => rw [hx, hbc] at hab; exact absurd rfl hab
                constructor
                · intro _
                  rw [hsq]
                  simp [squashDoor, altPairsB, ha, hbc]
                · intro hclose; rw [hclose] at ha; simp at ha
            | cons c r2 =>
                have hres := ih b (c :: r2) (by simp only [List.length_cons] at hlen ⊢; omega) hlast2
                cases hb : b.isClose with
                | true =>
                    have ha : a.isClose = false := by
                      cases hx : a.isClose with
                      | false => rfl
                      | true => rw [hx, hb] at hab; exact absurd rfl hab
                    constructor
                    · intro _
                      rw [hsq, List.map_cons, ha, altPairsB_cons_false]
                      exact hres.2 hb
                    · intro hclose; rw [hclose] at ha; simp at ha
                | false =>
                    have ha : a.isClose = true := by
                      cases hx : a.isClose with
                      | true => rfl
                      | false => rw [hx, hb] at hab; exact absurd rfl hab
                    constructor
                    · intro hopen; rw [hopen] at ha; simp at ha
                    · intro _
                      rw [hsq, List.map_cons, ha, altTailB_cons_true]
                      exact hres.1 hb

/-- The squash of an event list is a sublist of it (it only removes
events), so it inherits time-sortedness. -/
theorem squashDoor_sublist (n : ℕ) :
    ∀ s : List DoorEvent, s.length ≤ n → (squashDoor s).Sublist s := by
  induction n with
  | zero =>
      intro s hlen
      have hs : s = [] := List.length_eq_zero.mp (Nat.le_zero.mp hlen)
      subst hs
      simp [squashDoor]
  | succ n ih =>
      intro s hlen
      cases s with
      | nil => simp [squashDoor]
      | cons a s2 =>
          cases s2 with
          | nil => simp [squashDoor]
          | cons b r =>
              simp only [List.length_cons] at hlen
              by_cases hab : a.isClose = b.isClose
              · cases hc : b.isClose with
                | true =>
                    have hac : a.isClose = true := by rw [hab, hc]
                    have hsq : squashDoor (a :: b :: r) = squashDoor (a :: r) := by
                      simp [squashDoor, hab, hac, hc]
                    rw [hsq]
                    have h1 := ih (a :: r) (by simp only [List.length_cons]; omega)
                    exact h1.trans (List.Sublist.cons₂ a (List.sublist_cons_self b r))
                | false =>
                    have hac : a.isClose = false := by rw [hab, hc]
                    have hsq : squashDoor (a :: b :: r) = squashDoor (b :: r) := by
                      simp [squashDoor, hab, hac, hc]
                    rw [hsq]
                    have h1 := ih (b :: r) (by simp only [List.length_cons]; omega)
                    exact h1.trans (List.sublist_cons_self a (b :: r))
              · have hsq : squashDoor (a :: b :: r) = a :: squashDoor (b :: r) := by
                  simp [squashDoor, beq_iff_eq, hab]
                rw [hsq]
                exact List.Sublist.cons₂ a
                  (ih (b :: r) (by simp only [List.length_cons]; omega))

/-- A time-sorted event list alternating into open-close pairs yields as
many start times as end times, and each positional pair has its open time
before its close time. -/
theorem altPairs_zip_lt (n : ℕ) :
    ∀ r : List DoorEvent, r.length ≤ n → r.Pairwise doorLt →
      altPairsB (r.map DoorEvent.isClose) = true →
      (openTimes r).length = (closeTimes r).length
      ∧ ∀ pq ∈ (openTimes r).zip (closeTimes r), pq.1 < pq.2 := by
  induction n with
  | zero =>
      intro r hlen _ _
      have hs : r = [] := List.length_eq_zero.mp (Nat.le_zero.mp hlen)
      subst hs
      exact ⟨rfl, by intro pq hpq; simp [openTimes, closeTimes] at hpq⟩
  | succ n ih =>
      intro r hlen hsort halt
      cases r with
      | nil => exact ⟨rfl, by intro pq hpq; simp [openTimes, closeTimes] at hpq⟩
      | cons o t =>
          cases t with
          | nil => simp [altPairsB] at halt
          | cons c t2 =>
              simp only [List.map_cons, altPairsB, Bool.and_eq_true,
                Bool.not_eq_true'] at halt
              obtain ⟨⟨ho, hc⟩, halt2⟩ := halt
              have hoc : o.time < c.time := by
                rw [List.pairwise_cons] at hsort
                exact hsort.1 c (by simp)
              have hsort2 : (c :: t2).Pairwise doorLt := (List.pairwise_cons.mp hsort).2
              have hsort3 : t2.Pairwise doorLt := (List.pairwise_cons.mp hsort2).2
              have hres := ih t2 (by simp only [List.length_cons] at hlen ⊢; omega)
                hsort3 halt2
              have hopen : openTimes (o :: c :: t2) = o.time :: openTimes t2 := by
                simp [openTimes, List.filter_cons, ho, hc]
              have hclose : closeTimes (o :: c :: t2) = c.time :: closeTimes t2 := by
                simp [closeTimes, List.filter_cons, ho, hc]
              rw [hopen, hclose]
              constructor
              · simp [hres.1]
              · intro pq hpq
                rw [List.zip_cons_cons] at hpq
                rcases List.mem_cons.mp hpq with h | h
                · rw [h]; exact hoc
                · exact hres.2 pq h

/-- When the stream holds at least one open event, dropping the leading
closes leaves a nonempty stream starting with an open. -/
theorem dropLeadingCloses_spec (l : List DoorEvent)
    (hopen : l.any (fun e => !e.isClose) = true) :
    ∃ a t, dropLeadingCloses l = a :: t ∧ a.isClose = false := by
  induction l with
  | nil => simp at hopen
  | cons e t ih =>
      cases he : e.isClose with
      | true =>
          have ht : t.any (fun x => !x.isClose) = true := by
            simp only [List.any_cons, he, Bool.not_true, Bool.false_or] at hopen
            exact hopen
          obtain ⟨a, t2, h2, h3⟩ := ih ht
          refine ⟨a, t2, ?_, h3⟩
          simp only [dropLeadingCloses, List.dropWhile_cons, he, if_true]
          simpa [dropLeadingCloses] using h2
      | false =>
          refine ⟨e, t, ?_, he⟩
          simp [dropLeadingCloses, List.dropWhile_cons, he]

/-- The trailing-open repair of a nonempty stream either empties it or
keeps its head. -/
theorem trailingStep_cases (a : DoorEvent) (t : List DoorEvent) :
    trailingStep (a :: t) = [] ∨ ∃ t2, trailingStep (a :: t) = a :: t2 := by
  unfold trailingStep
  cases t with
  | nil =>
      cases he : a.isClose with
      | true => right; exact ⟨[], by simp [he]⟩
      | false => left; simp [he]
  | cons b t2 =>
      rw [List.getLast?_cons_cons]
      cases hg : (b :: t2).getLast? with
      | none => simp at hg
      | some e =>
          cases he : e.isClose with
          | true => right; exact ⟨b :: t2, by simp [he]⟩
          | false =>
              right
              refine ⟨(b :: t2).dropLast, ?_⟩
              simp [he, List.dropLast_cons_of_ne_nil]

/-- Claim C6 counterexample: on the door stream open, close, open, open
the repair drops the trailing open once, leaving open, close, open, whose
events do not strictly alternate into open-close pairs (the claimed
postcondition is false), and the positional trial pairing then fails with
mismatched column lengths (a pandas ValueError) instead of producing
trials. -/
theorem door_repair_counterexample :
    repairedDoorEvents doorCx =
      PyResult.ok [⟨1, false⟩, ⟨2, true⟩, ⟨3, false⟩]
    ∧ doorAlternationSpec [⟨1, false⟩, ⟨2, true⟩, ⟨3, false⟩] = false
    ∧ trialsFromDoorEvents doorCx = PyResult.raised "ValueError" := by
  refine ⟨by decide, by decide, by decide⟩

/-- Claim C6 (amended): given strictly increasing event times, at least
one open event, and the proviso that the stream left by the leading- and
trailing-edge repairs ends with a close, the surviving door events
strictly alternate open, close, ..., open, close, the open and close
columns have equal length, and trial N pairs the N-th open time with the
N-th close time, with start before end. -/
theorem door_repair_alternation (l : List DoorEvent)
    (hsort : l.Pairwise doorLt)
    (hopen : l.any (fun e => !e.isClose) = true)
    (hend : ((trailingStep (dropLeadingCloses l)).getLast?.all
      (fun e => e.isClose)) = true) :
    ∃ r, repairedDoorEvents l = PyResult.ok r
      ∧ altPairsB (r.map DoorEvent.isClose) = true
      ∧ (openTimes r).length = (closeTimes r).length
      ∧ trialsFromDoorEvents l = PyResult.ok ((openTimes r).zip (closeTimes r))
      ∧ ∀ pq ∈ (openTimes r).zip (closeTimes r), pq.1 < pq.2 := by
  obtain ⟨a, t, hdrop, haopen⟩ := dropLeadingCloses_spec l hopen
  have hlead : leadingStep l = PyResult.ok (a :: t) := by
    simp [leadingStep, hdrop]
  have hl2sub : (trailingStep (a :: t)).Sublist l := by
    have hs1 : (dropLeadingCloses l).Sublist l := List.dropWhile_sublist _
    rw [hdrop] at hs1
    have hs2 : (trailingStep (a :: t)).Sublist (a :: t) := by
      unfold trailingStep
      cases hg : (a :: t).getLast? with
      | none => exact List.Sublist.refl _
      | some e =>
          cases he : e.isClose with
          | true => simp [he]
          | false => simp [he, List.dropLast_sublist]
    exact hs2.trans hs1
  have hl2sort : (trailingStep (a :: t)).Pairwise doorLt :=
    List.Pairwise.sublist hl2sub hsort
  have hrep : repairedDoorEvents l =
      PyResult.ok (dupRepair (trailingStep (a :: t))) := by
    simp [repairedDoorEvents, hlead]
  have hsqeq : dupRepair (trailingStep (a :: t)) =
      squashDoor (trailingStep (a :: t)) := by
    have h := dupFold_eq_squash (trailingStep (a :: t)).length
      (trailingStep (a :: t)) [] (le_refl _) (by simpa using hl2sort)
    simpa [dupRepair] using h
  rcases trailingStep_cases a t with hnil | ⟨t2, hcons⟩
  · refine ⟨[], ?_, rfl, rfl, ?_, ?_⟩
    · rw [hrep, hsqeq, hnil]; simp [squashDoor]
    · have hr0 : repairedDoorEvents l = PyResult.ok [] := by
        rw [hrep, hsqeq, hnil]; simp [squashDoor]
      simp [trialsFromDoorEvents, hr0, openTimes, closeTimes]
    · intro pq hpq
      simp [openTimes, closeTimes] at hpq
  · have hlast : ∀ e, (a :: t2).getLast? = some e → e.isClose = true := by
      intro e he
      rw [hdrop, hcons, he] at hend
      simpa [Option.all] using hend
    have halt : altPairsB ((squashDoor (a :: t2)).map DoorEvent.isClose) = true := by
      have h := squashDoor_alternates (a :: t2).length a t2 (le_refl _) hlast
      exact h.1 haopen
    have hsqsub : (squashDoor (a :: t2)).Sublist (a :: t2) :=
      squashDoor_sublist (a :: t2).length (a :: t2) (le_refl _)
    have hsqsort : (squashDoor (a :: t2)).Pairwise doorLt := by
      rw [hcons] at hl2sort
      exact List.Pairwise.sublist hsqsub hl2sort
    have hpair := altPairs_zip_lt (squashDoor (a :: t2)).length (squashDoor (a :: t2))
      (le_refl _) hsqsort halt
    have hr0 : repairedDoorEvents l = PyResult.ok (squashDoor (a :: t2)) := by
      rw [hrep, hsqeq, hcons]
    refine ⟨squashDoor (a :: t2), hr0, halt, hpair.1, ?_, hpair.2⟩
    simp [trialsFromDoorEvents, hr0, hpair.1]

/-- Witness for the amended door-repair theorem: a stream with a
duplicated open, a duplicated close, a correct pair and a trailing open. -/
theorem door_repair_alternation_witness :
    (doorWitnessInput.Pairwise doorLt
      ∧ doorWitnessInput.any (fun e => !e.isClose) = true
      ∧ ((trailingStep (dropLeadingCloses doorWitnessInput)).getLast?.all
          (fun e => e.isClose)) = true)
    ∧ (∃ r, repairedDoorEvents doorWitnessInput = PyResult.ok r
        ∧ altPairsB (r.map DoorEvent.isClose) = true
        ∧ (openTimes r).length = (closeTimes r).length
        ∧ trialsFromDoorEvents doorWitnessInput =
            PyResult.ok ((openTimes r).zip (closeTimes r))
        ∧ ∀ pq ∈ (openTimes r).zip (closeTimes r), pq.1 < pq.2) :=
  ⟨⟨by decide, by decide, by decide⟩,
   door_repair_alternation doorWitnessInput (by decide) (by decide) (by decide)⟩

/-- Claim C7 (code bug): when a lever-zone row exists between the last
bridge departure and the press, the sub-path ends there (press0 = 10 ends
at row 9); but in the fallback case (press0 = 9, no lever row strictly
between index 5 and the press) the code assigns leverIndex[0] = 3, the
first lever row of the whole journey, which precedes the sub-path start 5
and differs from the press index 9 that its own log message announces. -/
theorem searchArenaNoLever_fallback_not_press :
    lastBridgeBeforePress rowsC7 0 10 = 5
    ∧ searchArenaNoLeverEnd rowsC7 0 10 = some 9
    ∧ lastBridgeBeforePress rowsC7 0 9 = 5
    ∧ searchArenaNoLeverEnd rowsC7 0 9 = some 3
    ∧ (some 3 : Option ℕ) ≠ some 9
    ∧ 3 < 5 := by
  refine ⟨by decide, by decide, by decide, by decide, by decide, by decide⟩

/-- Claim C8: the circular mean direction is wraparound-safe.  For the two
angles 0 and 360 - eps (0 < eps < 180) the mean of the unit vectors points
at direction 360 - eps/2, which is at circular distance eps/2 from 0, more
than 90 degrees away from 180, and differs from the numerical average
(0 + (360 - eps))/2 of the two angles. -/
theorem meanVectorDirection_wraparound (ε : ℝ) (h1 : 0 < ε) (h2 : ε < 180) :
    meanVectorDirection [0, 360 - ε] = 360 - ε / 2
    ∧ 360 - meanVectorDirection [0, 360 - ε] = ε / 2
    ∧ 90 < |meanVectorDirection [0, 360 - ε] - 180|
    ∧ meanVectorDirection [0, 360 - ε] ≠ (0 + (360 - ε)) / 2 := by
  have hpi := Real.pi_pos
  set δ := ε * Real.pi / 180 with hδ
  have hδpos : 0 < δ := div_pos (mul_pos h1 hpi) (by norm_num)
  have hδlt : δ < Real.pi := by
    rw [hδ, div_lt_iff₀ (by norm_num : (0:ℝ) < 180)]
    nlinarith
  have hcosδ : Real.cos Real.pi < Real.cos δ :=
    Real.cos_lt_cos_of_nonneg_of_le_pi (le_of_lt hδpos) (le_refl _) hδlt
  have hone : 0 < 1 + Real.cos δ := by
    rw [Real.cos_pi] at hcosδ
    linarith
  have hhalf : 0 < Real.cos (δ / 2) := by
    apply Real.cos_pos_of_mem_Ioo
    constructor
    · linarith
    · linarith
  have hA : (360 - ε) * Real.pi / 180 = 2 * Real.pi - δ := by
    rw [hδ]; ring
  have hmap : ([0, 360 - ε].map (fun t => t * Real.pi / 180)) = [0, 2 * Real.pi - δ] := by
    simp [hA]
  have hsum_sin : (([0, 2 * Real.pi - δ].map Real.sin).sum) = -Real.sin δ := by
    simp [Real.sin_two_pi_sub]
  have hsum_cos : (([0, 2 * Real.pi - δ].map Real.cos).sum) = 1 + Real.cos δ := by
    simp [Real.cos_two_pi_sub]
  have hlen : ((([0, 360 - ε] : List ℝ).length : ℕ) : ℝ) = 2 := by
    norm_num
  have hdir : meanVectorDirection [0, 360 - ε] =
      (if arctan2 (-Real.sin δ / 2) ((1 + Real.cos δ) / 2) < 0
       then 2 * Real.pi + arctan2 (-Real.sin δ / 2) ((1 + Real.cos δ) / 2)
       else arctan2 (-Real.sin δ / 2) ((1 + Real.cos δ) / 2)) / Real.pi * 180 := by
    simp only [meanVectorDirection, hmap, hsum_sin, hsum_cos, hlen]
  have hsin2 : Real.sin δ = 2 * Real.sin (δ / 2) * Real.cos (δ / 2) := by
    have h := Real.sin_two_mul (δ / 2)
    rw [show 2 * (δ / 2) = δ from by ring] at h
    exact h
  have hcos2 : 1 + Real.cos δ = 2 * Real.cos (δ / 2) ^ 2 := by
    have h := Real.cos_two_mul (δ / 2)
    rw [show 2 * (δ / 2) = δ from by ring] at h
    rw [h]; ring
  have harctan : arctan2 (-Real.sin δ / 2) ((1 + Real.cos δ) / 2) = -(δ / 2) := by
    have hx : 0 < (1 + Real.cos δ) / 2 := by linarith
    rw [arctan2, if_pos hx]
    have hdiv : (-Real.sin δ / 2) / ((1 + Real.cos δ) / 2) = -Real.tan (δ / 2) := by
      rw [Real.tan_eq_sin_div_cos, hsin2, hcos2]
      have hc : Real.cos (δ / 2) ≠ 0 := ne_of_gt hhalf
      field_simp
      ring
    rw [hdiv, Real.arctan_neg, Real.arctan_tan (by linarith) (by linarith)]
  have hneg : -(δ / 2) < 0 := by linarith
  rw [harctan, if_pos hneg] at hdir
  have hval : meanVectorDirection [0, 360 - ε] = 360 - ε / 2 := by
    rw [hdir, hδ]
    field_simp
    ring
  refine ⟨hval, by rw [hval]; ring, ?_, ?_⟩
  · rw [hval, show (360 : ℝ) - ε / 2 - 180 = 180 - ε / 2 from by ring,
      abs_of_pos (by linarith)]
    linarith
  · rw [hval]
    intro h
    linarith [h]

/-- Witness for the circular-mean theorem at eps = 1. -/
theorem meanVectorDirection_wraparound_witness :
    ((0:ℝ) < 1 ∧ (1:ℝ) < 180)
    ∧ (meanVectorDirection [0, 360 - 1] = 360 - 1 / 2
       ∧ 360 - meanVectorDirection [0, 360 - 1] = 1 / 2
       ∧ 90 < |meanVectorDirection [0, 360 - 1] - 180|
       ∧ meanVectorDirection [0, 360 - 1] ≠ (0 + (360 - 1)) / 2) :=
  ⟨⟨by norm_num, by norm_num⟩,
   meanVectorDirection_wraparound 1 (by norm_num) (by norm_num)⟩

end Autopipy
